import Mathlib

/-!
A verification development for the Simple C compiler: the semantic
checker (checker.cpp), the storage allocator (allocator.cpp) and the
code generator (generator.cpp), together with the type model (Type.cpp)
and the driver loop (parser.cpp).  Machine parameters are those of
machine.h (System V AMD64).
-/

namespace SCC

/-! Machine parameters, from machine.h. -/

def SIZEOF_CHAR : Nat := 1
def SIZEOF_INT : Nat := 4
def SIZEOF_LONG : Nat := 8
def SIZEOF_PTR : Nat := 8
def SIZEOF_REG : Nat := 8
def NUM_PARAM_REGS : Nat := 6
def PARAM_ALIGNMENT : Nat := 8
def STACK_ALIGNMENT : Nat := 16

/-! The type model, from Type.h / Type.cpp.  A type is an error type, a
scalar type, an array type or a function type; scalar and array types
carry a specifier and an indirection count, arrays a length, functions a
variadic flag and a parameter type list (struct Parameters). -/

/-- Type specifiers of Simple C: char, int, long (tokens.h). -/
inductive Spec where
  | char : Spec
  | int : Spec
  | long : Spec
deriving DecidableEq, Repr

/-- A Simple C type (class Type in Type.h): ERROR, SCALAR, ARRAY or
FUNCTION kind.  The default constructor produces the error type; its
specifier and indirection fields are never consulted, so the error type
is a single constructor here. -/
inductive Ty where
  | error : Ty
  | scalar (specifier : Spec) (indirection : Nat) : Ty
  | array (specifier : Spec) (indirection : Nat) (length : Nat) : Ty
  | fn (specifier : Spec) (indirection : Nat) (variadic : Bool)
      (params : List Ty) : Ty
deriving Repr

/-- Size in bytes of one specifier (SIZEOF_CHAR / SIZEOF_INT / SIZEOF_LONG). -/
def Spec.bytes : Spec → Nat
  | .char => SIZEOF_CHAR
  | .int => SIZEOF_INT
  | .long => SIZEOF_LONG

/-- Type::size (allocator.cpp): count = length for arrays, 1 otherwise;
pointers are SIZEOF_PTR wide, other scalars by specifier.  The C++
function asserts the kind is neither FUNCTION nor ERROR; those cases are
given the junk value 0 here and every use is guarded. -/
def Ty.size : Ty → Nat
  | .scalar s n => if 0 < n then SIZEOF_PTR else s.bytes
  | .array s n len => len * (if 0 < n then SIZEOF_PTR else s.bytes)
  | .error => 0
  | .fn _ _ _ _ => 0

/-- Type::isScalar. -/
def Ty.isScalar : Ty → Bool
  | .scalar _ _ => true
  | _ => false

/-- Type::isArray. -/
def Ty.isArray : Ty → Bool
  | .array _ _ _ => true
  | _ => false

/-- Type::isFunction. -/
def Ty.isFunction : Ty → Bool
  | .fn _ _ _ _ => true
  | _ => false

/-- Type::isNumeric: scalar with zero indirection. -/
def Ty.isNumeric : Ty → Bool
  | .scalar _ n => n == 0
  | _ => false

/-- Type::isPointer: scalar with positive indirection. -/
def Ty.isPointer : Ty → Bool
  | .scalar _ n => 0 < n
  | _ => false

/-- Type::decay: an array decays to a pointer one level deeper. -/
def Ty.decay : Ty → Ty
  | .array s n _ => .scalar s (n + 1)
  | t => t

/-- Type::promote: a plain char promotes to int. -/
def Ty.promote : Ty → Ty
  | .scalar .char 0 => .scalar .int 0
  | t => t

/-- Type::dereference: drop one level of indirection.  The C++ function
asserts the type is a pointer; the non-pointer cases return the argument
unchanged and every use is guarded. -/
def Ty.dereference : Ty → Ty
  | .scalar s (n + 1) => .scalar s n
  | t => t

mutual

/-- Type::operator== (Type.cpp): kinds must agree; ERROR equals ERROR;
scalars compare specifier and indirection; arrays additionally length;
functions additionally the variadic flag and the parameter list
pairwise. -/
def teq : Ty → Ty → Bool
  | .error, .error => true
  | .scalar s1 n1, .scalar s2 n2 => s1 == s2 && n1 == n2
  | .array s1 n1 l1, .array s2 n2 l2 => s1 == s2 && n1 == n2 && l1 == l2
  | .fn s1 n1 v1 p1, .fn s2 n2 v2 p2 =>
      s1 == s2 && n1 == n2 && v1 == v2 && teqList p1 p2
  | _, _ => false

/-- Pairwise comparison of parameter type lists (std::vector equality in
Type::operator==). -/
def teqList : List Ty → List Ty → Bool
  | [], [] => true
  | t :: ts, u :: us => teq t u && teqList ts us
  | _, _ => false

end

/-- Type::isCompatibleWith: both numeric, or both scalar and equal. -/
def Ty.isCompatibleWith (a b : Ty) : Bool :=
  (a.isNumeric && b.isNumeric) || (a.isScalar && teq a b)

/-- The checker's named type constant (checker.cpp): the error type. -/
def errorT : Ty := Ty.error

/-- The checker's named type constant: plain char. -/
def character : Ty := Ty.scalar .char 0

/-- The checker's named type constant: plain int. -/
def integer : Ty := Ty.scalar .int 0

/-- The checker's named type constant: plain long. -/
def longint : Ty := Ty.scalar .long 0

/-! The expression AST seen by the checker (Tree.h).  Every expression
node carries its checked type; the checker entry points construct nodes
passing the result type explicitly (checker.cpp).  Only the node kinds
the checker builds or inspects are needed here. -/

/-- An expression node.  Constructors mirror the Tree.h classes used by
checker.cpp: Number, Identifier, Call, Add, Subtract, Multiply, Divide,
Cast, Address. -/
inductive Expr where
  | num (value : Nat) (ty : Ty) : Expr
  | var (name : String) (ty : Ty) : Expr
  | call (args : List Expr) (ty : Ty) : Expr
  | add (left right : Expr) (ty : Ty) : Expr
  | sub (left right : Expr) (ty : Ty) : Expr
  | mul (left right : Expr) (ty : Ty) : Expr
  | div (left right : Expr) (ty : Ty) : Expr
  | cast (e : Expr) (ty : Ty) : Expr
  | addr (e : Expr) (ty : Ty) : Expr
deriving Repr

/-- Expression::type: the type recorded on the node. -/
def Expr.type : Expr → Ty
  | .num _ t => t
  | .var _ t => t
  | .call _ t => t
  | .add _ _ t => t
  | .sub _ _ t => t
  | .mul _ _ t => t
  | .div _ _ t => t
  | .cast _ t => t
  | .addr _ t => t

/-- Expression::isNumber: a Number node yields its value. -/
def Expr.isNumber : Expr → Option Nat
  | .num v _ => some v
  | _ => none

/-- The checker's cast (checker.cpp): an INT literal converted to LONG
is replaced by a LONG literal; otherwise a Cast node is inserted when
the types differ.  Modelled from the spec: the Number constructor lives
in the missing Tree.cpp, and the spec states the replacement literal is
a LONG Number of the same value. -/
def cast (e : Expr) (t : Ty) : Expr :=
  let e1 := match e.isNumber with
    | some v => if teq e.type integer && teq t longint then Expr.num v longint
                else e
    | none => e
  if teq e1.type t then e1 else Expr.cast e1 t

/-- The checker's promote: cast to the promoted type. -/
def promote (e : Expr) : Expr :=
  cast e e.type.promote

/-- The checker's decay: an array-typed expression is wrapped in an
Address node of the decayed type (checker.cpp returns the resulting
type; here the rewritten expression is returned and its type read off). -/
def decay (e : Expr) : Expr :=
  if e.type.isArray then Expr.addr e e.type.decay else e

/-- The checker's extend: sign-extend a char or int expression when the
target type is long, otherwise just promote. -/
def extend (e : Expr) (t : Ty) : Expr :=
  if (teq e.type character || teq e.type integer) && teq t longint then
    cast e longint
  else promote e

/-- The checker's scale: multiply a pointer-arithmetic operand by the
element size.  Size one only extends; a literal is constant-folded
(unsigned long arithmetic, hence the reduction mod 2 ^ 64); otherwise
the operand is extended and wrapped in Multiply(expr, Number(size),
LONG). -/
def scale (e : Expr) (size : Nat) : Expr :=
  if size == 1 then extend e longint
  else match e.isNumber with
    | some v => Expr.num ((v * size) % 2 ^ 64) longint
    | none => Expr.mul (extend e longint) (Expr.num size longint) longint

/-- checkSubtract (checker.cpp): both operands undergo extend toward the
other side's type and then decay (the second extend reads the already
rewritten left operand, as in the C++ evaluation order).  Numeric minus
numeric keeps the left type; pointer minus equal pointer gives LONG and
the node is wrapped as Divide(Subtract(...), Number(elem size), LONG);
pointer minus numeric scales the right operand. -/
def checkSubtract (left right : Expr) : Expr :=
  let l := decay (extend left right.type)
  let r := decay (extend right l.type)
  let t1 := l.type
  let t2 := r.type
  let scaled :=
    if !(teq t1 errorT) && !(teq t2 errorT) then
      if t1.isNumeric && t2.isNumeric then (r, t1)
      else if t1.isPointer && teq t1 t2 then (r, longint)
      else if t1.isPointer && t2.isNumeric then
        (scale r t1.dereference.size, t1)
      else (r, errorT)
    else (r, errorT)
  let e := Expr.sub l scaled.1 scaled.2
  if t1.isPointer && teq t1 t2 then
    Expr.div e (Expr.num t1.dereference.size longint) longint
  else e

/-- The per-parameter argument loop of checkCall: an argument of ERROR
type is skipped; otherwise it is decayed, must be compatible with its
parameter, and is cast to the parameter type.  The returned flag is
false when a check failed (the C++ loop then returns an ERROR call, the
arguments mutated so far kept); arguments beyond the parameter list are
returned untouched. -/
def checkArguments : List Ty → List Expr → List Expr × Bool
  | [], args => (args, true)
  | _ :: _, [] => ([], true)
  | p :: ps, a :: as =>
      if teq a.type errorT then
        let rest := checkArguments ps as
        (a :: rest.1, rest.2)
      else
        let a1 := decay a
        if p.isCompatibleWith a1.type then
          let rest := checkArguments ps as
          (cast a1 p :: rest.1, rest.2)
        else (a1 :: as, false)

/-- The variadic-extras loop of checkCall: each extra argument is
promoted and decayed and must be scalar.  The C++ loop advances its
index only for non-ERROR arguments, so it never terminates when an
extra argument has ERROR type; that case is rendered as none. -/
def checkExtraArguments : List Expr → Option (List Expr × Bool)
  | [] => some ([], true)
  | a :: as =>
      if teq a.type errorT then none
      else
        let a1 := decay (promote a)
        if a1.type.isScalar then
          match checkExtraArguments as with
          | some rest => some (a1 :: rest.1, rest.2)
          | none => none
        else some (a1 :: as, false)

/-- The body of checkCall for a FUNCTION-typed callee: a short or (when
not variadic) long argument list, a failed per-argument check, or a
non-scalar variadic extra all produce a Call of ERROR type; otherwise
the result type is SCALAR(specifier, indirection) of the callee.  The
value none renders the non-terminating C++ loop on an ERROR-typed
variadic extra. -/
def checkCallFn (s : Spec) (n : Nat) (variadic : Bool) (ps : List Ty)
    (args : List Expr) : Option Expr :=
  if args.length < ps.length then some (Expr.call args errorT)
  else if !variadic && args.length > ps.length then
    some (Expr.call args errorT)
  else
    let named := checkArguments ps args
    if !named.2 then some (Expr.call named.1 errorT)
    else
      match checkExtraArguments (named.1.drop ps.length) with
      | none => none
      | some extras =>
          if !extras.2 then
            some (Expr.call (named.1.take ps.length ++ extras.1) errorT)
          else
            some (Expr.call (named.1.take ps.length ++ extras.1)
              (Ty.scalar s n))

/-- checkCall (checker.cpp): an ERROR callee propagates ERROR without
touching the arguments; a non-function callee is reported and yields a
Call of ERROR type; a FUNCTION callee is handled by checkCallFn. -/
def checkCall (idType : Ty) (args : List Expr) : Option Expr :=
  if teq idType errorT then some (Expr.call args errorT)
  else
    match idType with
    | .fn s n variadic ps => checkCallFn s n variadic ps args
    | _ => some (Expr.call args errorT)

/-! The storage allocator (allocator.cpp), parameter part of
Function::allocate.  Stack-passed parameters (index at least
NUM_PARAM_REGS) receive increasing positive offsets starting at the
initial offset, each advance rounded up to PARAM_ALIGNMENT by the
increment loop; register-passed parameters receive descending negative
offsets from a fresh offset 0. -/

/-- The rounding loop of Function::allocate: while the offset is not a
multiple of PARAM_ALIGNMENT, increment it. -/
def padUp (o : Int) : Int :=
  if o % (PARAM_ALIGNMENT : Int) = 0 then o
  else o + ((PARAM_ALIGNMENT : Int) - o % (PARAM_ALIGNMENT : Int))

/-- Offsets of the stack-passed parameters, in declaration order: each
receives the running offset, which then advances by the parameter size
and is rounded up. -/
def stackParamOffsets : List Ty → Int → List Int
  | [], _ => []
  | t :: ts, o => o :: stackParamOffsets ts (padUp (o + (t.size : Int)))

/-- Offsets of the register-passed parameters, in declaration order:
the running offset is decremented by the size first, then assigned. -/
def regParamOffsets : List Ty → Int → List Int
  | [], _ => []
  | t :: ts, o =>
      let o1 := o - (t.size : Int)
      o1 :: regParamOffsets ts o1

/-- Function::allocate, parameter offsets indexed by parameter position:
positions below NUM_PARAM_REGS from the negative pass started at 0,
positions from NUM_PARAM_REGS up from the positive pass started at the
given initial offset (2 * SIZEOF_REG at the call site in
Function::generate).  Block::allocate touches only symbols whose offset
is still 0, so these stay as assigned. -/
def functionAllocate (types : List Ty) (off0 : Int) : List Int :=
  regParamOffsets (types.take NUM_PARAM_REGS) 0 ++
    stackParamOffsets (types.drop NUM_PARAM_REGS) off0

/-! The code generator's register protocol (generator.cpp).  The
bidirectional binding between expression nodes and registers is a pair
of back-references; nodes are identified here by natural numbers, with
their sizes and spill offsets recorded in the generator state. -/

/-- The general register pool of generator.cpp, in declaration order of
the registers vector: rax, rdi, rsi, rdx, rcx, r8, r9, r10, r11. -/
inductive Reg where
  | rax | rdi | rsi | rdx | rcx | r8 | r9 | r10 | r11
deriving DecidableEq, Repr

/-- The registers vector of generator.cpp. -/
def registers : List Reg :=
  [.rax, .rdi, .rsi, .rdx, .rcx, .r8, .r9, .r10, .r11]

/-- Generator state: the global spill offset, the Register::node
back-references, the Expression::reg back-references, the spill offsets
and the sizes (Expression::type().size()) of the nodes. -/
structure GState where
  offset : Int
  regNode : Reg → Option Nat
  nodeReg : Nat → Option Reg
  nodeOffset : Nat → Int
  nodeSize : Nat → Nat

/-- Instructions emitted by the register protocol and the division
generators: a spill mov to a frame slot, a load mov from a node's
operand into a register, the cqto / cltd sign extensions, and idiv on
the right operand. -/
inductive Instr where
  | movRegToFrame (size : Nat) (src : Reg) (slot : Int) : Instr
  | movToReg (size : Nat) (srcNode : Nat) (dst : Reg) : Instr
  | cqto : Instr
  | cltd : Instr
  | idiv (size : Nat) (rightNode : Nat) : Instr
deriving DecidableEq, Repr

/-- assign (generator.cpp): break any existing binding on either side,
then set both back-references; either side may be absent to detach. -/
def assign (e : Option Nat) (r : Option Reg) (s : GState) : GState :=
  let s1 := match e with
    | some node =>
        let s1a := match s.nodeReg node with
          | some r0 =>
              { s with regNode := fun x => if x = r0 then none else s.regNode x }
          | none => s
        { s1a with nodeReg := fun m => if m = node then r else s1a.nodeReg m }
    | none => s
  match r with
  | some rr =>
      let s2a := match s1.regNode rr with
        | some n0 =>
            { s1 with nodeReg := fun m => if m = n0 then none else s1.nodeReg m }
        | none => s1
      { s2a with regNode := fun x => if x = rr then e else s2a.regNode x }
  | none => s1

/-- load (generator.cpp): nothing when the register already holds the
node; otherwise any current occupant is spilled to a freshly
decremented frame slot, then a non-null node is moved into the
register, and finally the two are bound by assign. -/
def load (e : Option Nat) (r : Reg) (s : GState) : GState × List Instr :=
  if s.regNode r = e then (s, [])
  else
    let spill := match s.regNode r with
      | some node =>
          let off1 := s.offset - (s.nodeSize node : Int)
          ({ s with offset := off1,
                    nodeOffset := fun m => if m = node then off1
                                           else s.nodeOffset m },
           [Instr.movRegToFrame (s.nodeSize node) r off1])
      | none => (s, [])
    let out2 := match e with
      | some node => [Instr.movToReg (spill.1.nodeSize node) node r]
      | none => []
    (assign e (some r) spill.1, spill.2 ++ out2)

/-- getreg (generator.cpp): the first register of the pool holding no
node; when none is free the first register of the pool (rax) is spilled
with load(nullptr, ...) and returned. -/
def getreg (s : GState) : Reg × GState × List Instr :=
  match registers.find? (fun r => (s.regNode r).isNone) with
  | some r => (r, s, [])
  | none =>
      let spill := load none Reg.rax s
      (Reg.rax, spill.1, spill.2)

/-- The register-binding sequence of the comparison generators
(LessThan::generate and its five siblings): assign(this, getreg())
binds the result node to a fresh register, then getreg() is called a
second time for the byte register receiving the set instruction.  The
two chosen registers and the resulting state are returned. -/
def setccRegs (this : Nat) (s : GState) : Reg × Reg × GState × List Instr :=
  let g1 := getreg s
  let s2 := assign (some this) (some g1.1) g1.2.1
  let g2 := getreg s2
  (g1.1, g2.1, g2.2.1, g1.2.2 ++ g2.2.2)

/-- The shared body of Divide::generate and Remainder::generate after
the operands have been generated: the left operand is loaded into rax
only when it is in no register, rdx is unloaded, the right operand is
loaded into rcx only when it is in no register, cqto or cltd is chosen
by the left operand's size, idiv on the right operand is emitted, and
both operands are detached. -/
def divideSetup (l r : Nat) (s : GState) : GState × List Instr :=
  let step1 := if s.nodeReg l = none then load (some l) Reg.rax s else (s, [])
  let step2 := load none Reg.rdx step1.1
  let step3 := if step2.1.nodeReg r = none then load (some r) Reg.rcx step2.1
               else (step2.1, [])
  let ext := if step3.1.nodeSize l = 8 then [Instr.cqto] else [Instr.cltd]
  let idivIns := [Instr.idiv (step3.1.nodeSize r) r]
  let s4 := assign (some r) none step3.1
  let s5 := assign (some l) none s4
  (s5, step1.2 ++ step2.2 ++ step3.2 ++ ext ++ idivIns)

/-- Divide::generate after operand generation: the shared setup, then
the result node is bound to rax. -/
def divideGen (l r this : Nat) (s : GState) : GState × List Instr :=
  let setup := divideSetup l r s
  (assign (some this) (some Reg.rax) setup.1, setup.2)

/-- Remainder::generate after operand generation: the shared setup,
then the result node is bound to rdx. -/
def remainderGen (l r this : Nat) (s : GState) : GState × List Instr :=
  let setup := divideSetup l r s
  (assign (some this) (some Reg.rdx) setup.1, setup.2)

/-! The stack-adjustment skeleton of Call::generate (generator.cpp). -/

/-- align (generator.cpp): bytes needed to align the given offset on
STACK_ALIGNMENT; C++ % truncates toward zero, abs is taken of the
remainder's argument. -/
def align (offset : Int) : Int :=
  if Int.tmod offset (STACK_ALIGNMENT : Int) = 0 then 0
  else (STACK_ALIGNMENT : Int) - ((offset.natAbs % STACK_ALIGNMENT : Nat) : Int)

/-- One step of Call::generate's stack handling. -/
inductive CallStep where
  | subqRsp (bytes : Nat) : CallStep
  | pushArg (idx : Nat) : CallStep
  | regArg (idx : Nat) : CallStep
  | callIns : CallStep
  | addqRsp (bytes : Nat) : CallStep
deriving DecidableEq, Repr

/-- The argument-moving loop of Call::generate, from index n-1 down to
0: a stack-passed argument (index at least NUM_PARAM_REGS) advances
numBytes by PARAM_ALIGNMENT and is pushed; the rest go to parameter
registers.  Returns the steps and the final numBytes. -/
def argMoves : Nat → Nat → List CallStep × Nat
  | 0, b => ([], b)
  | k + 1, b =>
      if NUM_PARAM_REGS ≤ k then
        (CallStep.pushArg k :: (argMoves k (b + PARAM_ALIGNMENT)).1,
         (argMoves k (b + PARAM_ALIGNMENT)).2)
      else
        (CallStep.regArg k :: (argMoves k b).1, (argMoves k b).2)

/-- The initial numBytes of Call::generate: the alignment padding when
more than NUM_PARAM_REGS arguments exist, 0 otherwise. -/
def callStackBytes0 (n : Nat) : Nat :=
  if NUM_PARAM_REGS < n then
    (align (((n - NUM_PARAM_REGS) * PARAM_ALIGNMENT : Nat) : Int)).toNat
  else 0

/-- The stack skeleton of Call::generate for n arguments: numBytes
starts at the alignment padding and a subq is emitted when it is
positive; the argument loop follows, then the call, then an addq
restoring the final numBytes when positive. -/
def callStack (n : Nat) : List CallStep × Nat :=
  ((if 0 < callStackBytes0 n then [CallStep.subqRsp (callStackBytes0 n)]
    else []) ++
     (argMoves n (callStackBytes0 n)).1 ++ [CallStep.callIns] ++
     (if 0 < (argMoves n (callStackBytes0 n)).2 then
        [CallStep.addqRsp ((argMoves n (callStackBytes0 n)).2)] else []),
   (argMoves n (callStackBytes0 n)).2)

/-- Bytes taken from rsp before the call instruction: subq amounts plus
PARAM_ALIGNMENT per push, summed up to the call step. -/
def preCallBytes : List CallStep → Nat
  | [] => 0
  | CallStep.callIns :: _ => 0
  | CallStep.subqRsp k :: rest => k + preCallBytes rest
  | CallStep.pushArg _ :: rest => PARAM_ALIGNMENT + preCallBytes rest
  | _ :: rest => preCallBytes rest

/-! The translation-unit driver (main and functionOrGlobal in
parser.cpp) as far as global variables and function definitions are
concerned, with the diagnostic sink abstracted to explicit events. -/

/-- One event of a translation unit: a global declarator handled by
declareVariable in the global scope, a semantic diagnostic delivered to
report, or a completed function definition. -/
inductive TUEvent where
  | declVar (name : String) (ty : Ty) : TUEvent
  | diag : TUEvent
  | funcDef (name : String) : TUEvent
deriving Repr

/-- Whether an event is a diagnostic. -/
def TUEvent.isDiag : TUEvent → Bool
  | .diag => true
  | _ => false

/-- Driver state: the error count, the global scope's symbols in
insertion order, and the names of the functions whose code was
generated. -/
structure TUState where
  errors : Nat
  globals : List (String × Ty)
  funcOut : List String
deriving Repr

/-- One driver step.  declareVariable at global scope: a new name is
inserted; a redeclaration keeps the original and reports conflicting
types when the types differ.  report increments the error count.  After
a function body the parser generates code only when the error count is
still zero (parser.cpp: if (numerrors == 0) function->generate()). -/
def tuStep (s : TUState) : TUEvent → TUState
  | .declVar name t =>
      match s.globals.find? (fun p => p.1 == name) with
      | some p => if teq p.2 t then s else { s with errors := s.errors + 1 }
      | none => { s with globals := s.globals ++ [(name, t)] }
  | .diag => { s with errors := s.errors + 1 }
  | .funcDef name =>
      if s.errors = 0 then { s with funcOut := s.funcOut ++ [name] } else s

/-- The driver loop over a translation unit, from the empty global
scope. -/
def runTU (evs : List TUEvent) : TUState :=
  evs.foldl tuStep ⟨0, [], []⟩

/-- generateGlobals (generator.cpp): one .comm line, carrying the
symbol's name and size, for every non-function symbol of the global
scope, unconditionally. -/
def generateGlobals (globals : List (String × Ty)) : List (String × Nat) :=
  (globals.filter (fun p => !p.2.isFunction)).map (fun p => (p.1, p.2.size))

/-- The .comm output of a whole translation unit: main calls
generateGlobals on the closed global scope after the parse loop. -/
def commOutput (evs : List TUEvent) : List (String × Nat) :=
  generateGlobals (runTU evs).globals

/-! The process exit behaviour of main and error (parser.cpp), over the
sequence of diagnostics a run produces. -/

/-- A diagnostic event of a parser run: a semantic error reported by the
checker, or a syntax error reported by error(). -/
inductive PEvent where
  | semErr : PEvent
  | synErr : PEvent
deriving DecidableEq, Repr

/-- The driver's observable outcome (final numerrors, exit status):
semantic errors are counted and the loop continues; error() reports and
immediately calls exit(EXIT_FAILURE); reaching the end of input exits
with EXIT_SUCCESS. -/
def mainLoop : List PEvent → Nat → Nat × Nat
  | [], n => (n, 0)
  | PEvent.semErr :: rest, n => mainLoop rest (n + 1)
  | PEvent.synErr :: _, n => (n + 1, 1)

/-! Concrete generator states used as evaluation points. -/

/-- A state whose rax holds node 0 (size 8); node 1 (size 4) is in no
register. -/
def exState : GState where
  offset := 0
  regNode := fun r => if r = Reg.rax then some 0 else none
  nodeReg := fun n => if n = 0 then some Reg.rax else none
  nodeOffset := fun _ => 0
  nodeSize := fun n => if n = 0 then 8 else 4

/-- A state with every register free. -/
def freeState : GState where
  offset := 0
  regNode := fun _ => none
  nodeReg := fun _ => none
  nodeOffset := fun _ => 0
  nodeSize := fun _ => 8

/-- A state whose rdi holds node 0 and rsi holds node 1, both of size
8; rax, rcx and rdx are free. -/
def divState : GState where
  offset := 0
  regNode := fun r => if r = Reg.rdi then some 0
                      else if r = Reg.rsi then some 1 else none
  nodeReg := fun n => if n = 0 then some Reg.rdi
                      else if n = 1 then some Reg.rsi else none
  nodeOffset := fun _ => 0
  nodeSize := fun _ => 8

/-! Theorems.  First the general facts about the type model. -/

mutual

theorem teq_iff : (t u : Ty) → (teq t u = true ↔ t = u)
  | .error, u => by cases u <;> simp [teq]
  | .scalar s1 n1, u => by cases u <;> simp [teq]
  | .array s1 n1 l1, u => by cases u <;> simp [teq, and_assoc]
  | .fn s1 n1 v1 p1, .error => by simp [teq]
  | .fn s1 n1 v1 p1, .scalar s2 n2 => by simp [teq]
  | .fn s1 n1 v1 p1, .array s2 n2 l2 => by simp [teq]
  | .fn s1 n1 v1 p1, .fn s2 n2 v2 p2 => by
      simp [teq, teqList_iff p1 p2, and_assoc]

theorem teqList_iff : (ts us : List Ty) → (teqList ts us = true ↔ ts = us)
  | [], [] => by simp [teqList]
  | [], _ :: _ => by simp [teqList]
  | _ :: _, [] => by simp [teqList]
  | t :: ts, u :: us => by
      simp [teqList, teq_iff t u, teqList_iff ts us]

end

/-- C9: Type equality (operator ==) is an equivalence relation on Type
values, and equal types that are neither FUNCTION nor ERROR (so that
size is defined) have equal sizes. -/
theorem type_equality_equivalence :
    (∀ t : Ty, teq t t = true)
    ∧ (∀ t u : Ty, teq t u = true → teq u t = true)
    ∧ (∀ t u v : Ty, teq t u = true → teq u v = true → teq t v = true)
    ∧ (∀ t u : Ty, teq t u = true → t.isFunction = false → t ≠ Ty.error →
        t.size = u.size) := by
  refine ⟨fun t => (teq_iff t t).mpr rfl,
    fun t u h => (teq_iff u t).mpr ((teq_iff t u).mp h).symm,
    fun t u v h1 h2 =>
      (teq_iff t v).mpr (((teq_iff t u).mp h1).trans ((teq_iff u v).mp h2)),
    fun t u h _ _ => by rw [(teq_iff t u).mp h]⟩

/-- Witness for C9: reflexivity, symmetry, transitivity and size
congruence evaluated at concrete scalar types. -/
theorem type_equality_equivalence_witness :
    teq integer integer = true
    ∧ teq longint longint = true
    ∧ teq character character = true
    ∧ integer.size = integer.size :=
  ⟨type_equality_equivalence.1 integer,
   type_equality_equivalence.2.1 longint longint rfl,
   type_equality_equivalence.2.2.1 character character character rfl rfl,
   type_equality_equivalence.2.2.2 integer integer rfl rfl
     (fun h => nomatch h)⟩

theorem mainLoop_no_syn : ∀ (evs : List PEvent) (n : Nat),
    PEvent.synErr ∉ evs → mainLoop evs n = (n + evs.length, 0)
  | [], n, _ => by simp [mainLoop]
  | PEvent.semErr :: rest, n, h => by
      have hr : PEvent.synErr ∉ rest := fun hm => h (List.mem_cons_of_mem _ hm)
      rw [mainLoop, mainLoop_no_syn rest (n + 1) hr]
      simp
      omega
  | PEvent.synErr :: rest, n, h => absurd (List.mem_cons_self _ _) h

theorem mainLoop_syn : ∀ (pre : List PEvent) (n : Nat) (post : List PEvent),
    PEvent.synErr ∉ pre →
    mainLoop (pre ++ PEvent.synErr :: post) n = (n + pre.length + 1, 1)
  | [], n, post, _ => by simp [mainLoop]
  | PEvent.semErr :: rest, n, post, h => by
      have hr : PEvent.synErr ∉ rest := fun hm => h (List.mem_cons_of_mem _ hm)
      rw [List.cons_append, mainLoop, mainLoop_syn rest (n + 1) post hr]
      simp
      omega
  | PEvent.synErr :: rest, n, post, h => absurd (List.mem_cons_self _ _) h

/-- C10: a run that reaches end of input without a syntax error exits
with status 0 (EXIT_SUCCESS) even when semantic diagnostics were
counted; a nonzero exit status only arises from a syntax error, and a
syntax error terminates the run immediately, ignoring everything after
it. -/
theorem main_exit_status (evs : List PEvent) :
    (PEvent.synErr ∉ evs → mainLoop evs 0 = (evs.length, 0))
    ∧ ((mainLoop evs 0).2 ≠ 0 → PEvent.synErr ∈ evs)
    ∧ (∀ pre post : List PEvent, PEvent.synErr ∉ pre →
        evs = pre ++ PEvent.synErr :: post →
        mainLoop evs 0 = (pre.length + 1, 1)) := by
  refine ⟨?_, ?_, ?_⟩
  · intro h
    rw [mainLoop_no_syn evs 0 h]
    simp
  · intro h
    by_contra hmem
    rw [mainLoop_no_syn evs 0 hmem] at h
    exact h rfl
  · intro pre post hpre hsplit
    rw [hsplit, mainLoop_syn pre 0 post hpre]
    simp

/-- Witness for C10: two semantic errors still exit 0; a syntax error
after one semantic error exits 1 at once, ignoring the rest. -/
theorem main_exit_status_witness :
    mainLoop [PEvent.semErr, PEvent.semErr] 0 = (2, 0)
    ∧ mainLoop [PEvent.semErr, PEvent.synErr, PEvent.semErr] 0 = (2, 1) :=
  ⟨(main_exit_status [PEvent.semErr, PEvent.semErr]).1 (by decide),
   (main_exit_status [PEvent.semErr, PEvent.synErr, PEvent.semErr]).2.2
     [PEvent.semErr] [PEvent.semErr] (by decide) rfl⟩

/-- C8 counterexample: a global variable declared after a reported
diagnostic still produces its .comm line — the error count is positive
at the end of the run yet generateGlobals emits (\"a\", 4). -/
theorem comm_after_error_cex :
    0 < (runTU [TUEvent.diag, TUEvent.declVar "a" integer]).errors
    ∧ commOutput [TUEvent.diag, TUEvent.declVar "a" integer]
        = [("a", SIZEOF_INT)] := by
  constructor
  · decide
  · decide

theorem tuStep_globals_decl (s : TUState) (a : String) (t : Ty) :
    (tuStep s (.declVar a t)).globals
      = (match s.globals.find? (fun p => p.1 == a) with
         | some _ => s.globals
         | none => s.globals ++ [(a, t)]) := by
  unfold tuStep
  cases h : s.globals.find? (fun p => p.1 == a) with
  | none => simp [h]
  | some p => by_cases ht : teq p.2 t = true <;> simp [h, ht]

theorem foldl_globals_filter : ∀ (evs : List TUEvent) (s1 s2 : TUState),
    s1.globals = s2.globals →
    (evs.foldl tuStep s1).globals
      = ((evs.filter (fun e => !e.isDiag)).foldl tuStep s2).globals
  | [], s1, s2, h => h
  | TUEvent.declVar a t :: rest, s1, s2, h => by
      rw [List.foldl_cons, List.filter_cons]
      simp only [TUEvent.isDiag, Bool.not_false, if_pos]
      rw [List.foldl_cons]
      apply foldl_globals_filter rest
      rw [tuStep_globals_decl, tuStep_globals_decl, h]
  | TUEvent.diag :: rest, s1, s2, h => by
      rw [List.foldl_cons, List.filter_cons]
      simp only [TUEvent.isDiag, Bool.not_true, if_neg]
      apply foldl_globals_filter rest
      simpa [tuStep] using h
  | TUEvent.funcDef a :: rest, s1, s2, h => by
      rw [List.foldl_cons, List.filter_cons]
      simp only [TUEvent.isDiag, Bool.not_false, if_pos]
      rw [List.foldl_cons]
      apply foldl_globals_filter rest
      unfold tuStep
      by_cases h1 : s1.errors = 0 <;> by_cases h2 : s2.errors = 0 <;>
        simp [h1, h2, h]

theorem foldl_funcOut_stuck : ∀ (evs : List TUEvent) (s : TUState),
    0 < s.errors →
    (evs.foldl tuStep s).funcOut = s.funcOut
    ∧ 0 < (evs.foldl tuStep s).errors
  | [], s, h => ⟨rfl, h⟩
  | TUEvent.declVar a t :: rest, s, h => by
      rw [List.foldl_cons]
      have hs : (tuStep s (.declVar a t)).funcOut = s.funcOut
          ∧ 0 < (tuStep s (.declVar a t)).errors := by
        unfold tuStep
        cases hf : s.globals.find? (fun p => p.1 == a) with
        | none => simpa [hf] using h
        | some p =>
            by_cases ht : teq p.2 t = true
            · simpa [hf, ht] using h
            · simp [hf, ht]
      have ih := foldl_funcOut_stuck rest _ hs.2
      exact ⟨ih.1.trans hs.1, ih.2⟩
  | TUEvent.diag :: rest, s, h => by
      rw [List.foldl_cons]
      have hs : (tuStep s .diag).funcOut = s.funcOut
          ∧ 0 < (tuStep s .diag).errors := by
        simp [tuStep]
      have ih := foldl_funcOut_stuck rest _ hs.2
      exact ⟨ih.1.trans hs.1, ih.2⟩
  | TUEvent.funcDef a :: rest, s, h => by
      rw [List.foldl_cons]
      have hs : tuStep s (.funcDef a) = s := by
        simp only [tuStep]
        rw [if_neg (by omega)]
      rw [hs]
      exact foldl_funcOut_stuck rest s h

/-- C8 amended: generateGlobals emits a .comm line for every
non-function global symbol regardless of any reported diagnostics —
removing the diagnostics from a run leaves the .comm output unchanged —
while function code generation is indeed suppressed for every function
definition that follows a diagnostic. -/
theorem comm_output_ignores_diagnostics :
    (∀ evs : List TUEvent,
        commOutput evs = commOutput (evs.filter (fun e => !e.isDiag)))
    ∧ (∀ evs : List TUEvent, (runTU (TUEvent.diag :: evs)).funcOut = []) := by
  constructor
  · intro evs
    unfold commOutput runTU
    rw [foldl_globals_filter evs ⟨0, [], []⟩ ⟨0, [], []⟩ rfl]
  · intro evs
    unfold runTU
    rw [List.foldl_cons]
    exact (foldl_funcOut_stuck evs (tuStep ⟨0, [], []⟩ .diag) (by simp [tuStep])).1

theorem isPointer_shape (t : Ty) (h : t.isPointer = true) :
    ∃ s n, t = Ty.scalar s (n + 1) := by
  cases t with
  | scalar s n =>
      cases n with
      | zero => simp [Ty.isPointer] at h
      | succ m => exact ⟨s, m, rfl⟩
  | error => simp [Ty.isPointer] at h
  | array s n len => simp [Ty.isPointer] at h
  | fn s n v ps => simp [Ty.isPointer] at h

theorem isNumeric_shape (t : Ty) (h : t.isNumeric = true) :
    ∃ s, t = Ty.scalar s 0 := by
  cases t with
  | scalar s n =>
      cases n with
      | zero => exact ⟨s, rfl⟩
      | succ m => simp [Ty.isNumeric] at h
  | error => simp [Ty.isNumeric] at h
  | array s n len => simp [Ty.isNumeric] at h
  | fn s n v ps => simp [Ty.isNumeric] at h

/-- C2: when, after the usual conversions, both operands of
checkSubtract have equal pointer types, the returned node is
Divide(Subtract(left, right), Number(elem size), LONG) with the inner
Subtract also of type LONG; when the converted left operand is a
pointer and the right is numeric, the right operand is scaled by the
element size and the result keeps the pointer type. -/
theorem checkSubtract_pointer_cases (left right l r : Expr)
    (hl : l = decay (extend left right.type))
    (hr : r = decay (extend right l.type)) :
    (l.type.isPointer = true → teq l.type r.type = true →
      checkSubtract left right =
        Expr.div (Expr.sub l r longint)
          (Expr.num l.type.dereference.size longint) longint)
    ∧ (l.type.isPointer = true → r.type.isNumeric = true →
      checkSubtract left right =
        Expr.sub l (scale r l.type.dereference.size) l.type) := by
  constructor
  · intro hp hq
    obtain ⟨s, n, hsh⟩ := isPointer_shape _ hp
    have hteq : l.type = r.type := (teq_iff _ _).mp hq
    have h1 : teq l.type errorT = false := by rw [hsh]; rfl
    have h2 : teq r.type errorT = false := by rw [← hteq, hsh]; rfl
    have h3 : l.type.isNumeric = false := by rw [hsh]; rfl
    simp only [checkSubtract, ← hl, ← hr, h1, h2, h3, hp, hq,
      Bool.not_false, Bool.and_self, Bool.false_and, Bool.true_and,
      Bool.and_true, if_true, if_false, Bool.false_eq_true, ite_true,
      ite_false]
  · intro hp hnum
    obtain ⟨s, n, hsh⟩ := isPointer_shape _ hp
    obtain ⟨s2, hsh2⟩ := isNumeric_shape _ hnum
    have h1 : teq l.type errorT = false := by rw [hsh]; rfl
    have h2 : teq r.type errorT = false := by rw [hsh2]; rfl
    have h3 : l.type.isNumeric = false := by rw [hsh]; rfl
    have h4 : teq l.type r.type = false := by rw [hsh, hsh2]; simp [teq]
    simp only [checkSubtract, ← hl, ← hr, h1, h2, h3, h4, hp, hnum,
      Bool.not_false, Bool.and_self, Bool.false_and, Bool.true_and,
      Bool.and_true, Bool.and_false, if_true, if_false,
      Bool.false_eq_true, ite_true, ite_false]

/-- Witness for C2: int pointer minus int pointer yields the
Divide-wrapped Subtract with element size 4; long pointer minus the
literal 3 scales the literal to 24 and keeps the pointer type. -/
theorem checkSubtract_pointer_cases_witness :
    checkSubtract (Expr.var "p" (Ty.scalar Spec.int 1))
        (Expr.var "q" (Ty.scalar Spec.int 1))
      = Expr.div
          (Expr.sub (Expr.var "p" (Ty.scalar Spec.int 1))
            (Expr.var "q" (Ty.scalar Spec.int 1)) longint)
          (Expr.num 4 longint) longint
    ∧ checkSubtract (Expr.var "p" (Ty.scalar Spec.long 1))
        (Expr.num 3 integer)
      = Expr.sub (Expr.var "p" (Ty.scalar Spec.long 1))
          (Expr.num 24 longint) (Ty.scalar Spec.long 1) := by
  constructor
  · exact (checkSubtract_pointer_cases (Expr.var "p" (Ty.scalar Spec.int 1))
      (Expr.var "q" (Ty.scalar Spec.int 1)) _ _ rfl rfl).1 rfl rfl
  · exact (checkSubtract_pointer_cases (Expr.var "p" (Ty.scalar Spec.long 1))
      (Expr.num 3 integer) _ _ rfl rfl).2 rfl rfl

/-- C1 counterexample: for a callee of non-ERROR function type int(int)
and the legal single argument count, an argument of ERROR type does not
make the returned Call node of ERROR type — checkCall skips the
ERROR-typed argument and returns a Call of the callee's return type
int. -/
theorem checkCall_error_arg_cex :
    checkCall (Ty.fn Spec.int 0 false [integer]) [Expr.var "x" Ty.error]
      = some (Expr.call [Expr.var "x" Ty.error] integer)
    ∧ integer ≠ Ty.error :=
  ⟨rfl, fun h => nomatch h⟩

/-- C1 amended: an ERROR-typed named argument is skipped by checkCall
rather than propagated; whenever the argument-count checks pass, the
per-parameter checks on the non-ERROR arguments pass, and the variadic
extras pass, the returned Call node has the callee's (non-ERROR) return
type SCALAR(specifier, indirection) even if some argument has ERROR
type.  The Call's type is ERROR only when the callee is ERROR or not a
function, the argument count is illegal, or a check on a non-ERROR
argument fails. -/
theorem checkCall_result_type (s : Spec) (n : Nat) (variadic : Bool)
    (ps : List Ty) (args extras : List Expr)
    (h1 : ¬ args.length < ps.length)
    (h2 : variadic = false → args.length = ps.length)
    (h3 : (checkArguments ps args).2 = true)
    (h4 : checkExtraArguments ((checkArguments ps args).1.drop ps.length)
            = some (extras, true)) :
    checkCall (Ty.fn s n variadic ps) args
      = some (Expr.call ((checkArguments ps args).1.take ps.length ++ extras)
          (Ty.scalar s n))
    ∧ Ty.scalar s n ≠ Ty.error := by
  refine ⟨?_, fun h => nomatch h⟩
  have hc : (!variadic && decide (args.length > ps.length)) = false := by
    cases variadic
    · simp [h2 rfl]
    · rfl
  show checkCallFn s n variadic ps args = _
  unfold checkCallFn
  rw [if_neg h1]
  simp only [gt_iff_lt, hc, Bool.false_eq_true, if_false, h3, h4,
    Bool.not_true, ite_false]

/-- Witness for C1: the amended theorem applied at the
counterexample's input, a call of int(int) on one ERROR-typed
argument. -/
theorem checkCall_result_type_witness :
    checkCall (Ty.fn Spec.int 0 false [integer]) [Expr.var "x" Ty.error]
      = some (Expr.call [Expr.var "x" Ty.error] integer) :=
  (checkCall_result_type Spec.int 0 false [integer] [Expr.var "x" Ty.error]
    [] (by decide) (fun _ => rfl) rfl rfl).1

theorem argMoves_snd : ∀ (n b : Nat),
    (argMoves n b).2 = b + PARAM_ALIGNMENT * (n - NUM_PARAM_REGS)
  | 0, b => by simp [argMoves]
  | k + 1, b => by
      unfold argMoves
      by_cases hk : NUM_PARAM_REGS ≤ k
      · rw [if_pos hk]
        dsimp only
        rw [argMoves_snd k (b + PARAM_ALIGNMENT)]
        simp only [NUM_PARAM_REGS, PARAM_ALIGNMENT] at hk ⊢
        omega
      · rw [if_neg hk]
        dsimp only
        rw [argMoves_snd k b]
        simp only [NUM_PARAM_REGS, PARAM_ALIGNMENT] at hk ⊢
        omega

theorem preCallBytes_argMoves : ∀ (n b : Nat) (rest : List CallStep),
    preCallBytes ((argMoves n b).1 ++ CallStep.callIns :: rest)
      = PARAM_ALIGNMENT * (n - NUM_PARAM_REGS)
  | 0, b, rest => by simp [argMoves, preCallBytes]
  | k + 1, b, rest => by
      unfold argMoves
      by_cases hk : NUM_PARAM_REGS ≤ k
      · rw [if_pos hk]
        dsimp only
        rw [List.cons_append, preCallBytes,
          preCallBytes_argMoves k (b + PARAM_ALIGNMENT) rest]
        simp only [NUM_PARAM_REGS, PARAM_ALIGNMENT] at hk ⊢
        omega
      · rw [if_neg hk]
        dsimp only
        rw [List.cons_append]
        have hstep : preCallBytes (CallStep.regArg k ::
            ((argMoves k b).1 ++ CallStep.callIns :: rest))
            = preCallBytes ((argMoves k b).1 ++ CallStep.callIns :: rest) :=
          rfl
        rw [hstep, preCallBytes_argMoves k b rest]
        simp only [NUM_PARAM_REGS, PARAM_ALIGNMENT] at hk ⊢
        omega

theorem align_toNat (m : Nat) :
    (align (m : Int)).toNat = if m % 16 = 0 then 0 else 16 - m % 16 := by
  unfold align STACK_ALIGNMENT
  rw [← Int.ofNat_tmod]
  simp only [Int.natAbs_ofNat]
  by_cases hm : m % 16 = 0
  · rw [if_pos hm, if_pos (by exact_mod_cast congrArg Nat.cast hm)]
    rfl
  · rw [if_neg hm, if_neg (by exact_mod_cast hm)]
    omega

/-- C6: for a Call with more than NUM_PARAM_REGS arguments, the bytes
taken from rsp before the call (the initial subq padding plus
PARAM_ALIGNMENT per push) equal (n - NUM_PARAM_REGS) * PARAM_ALIGNMENT
rounded up to a multiple of STACK_ALIGNMENT, and the single addq after
the call restores exactly that amount. -/
theorem call_stack_alignment (n : Nat) (h : NUM_PARAM_REGS < n) :
    preCallBytes (callStack n).1
      = STACK_ALIGNMENT *
          (((n - NUM_PARAM_REGS) * PARAM_ALIGNMENT + (STACK_ALIGNMENT - 1))
            / STACK_ALIGNMENT)
    ∧ (callStack n).1.getLast?
        = some (CallStep.addqRsp (preCallBytes (callStack n).1)) := by
  have hk : 1 ≤ n - NUM_PARAM_REGS := by
    simp only [NUM_PARAM_REGS] at h ⊢
    omega
  have hb0 : callStackBytes0 n
      = if (n - NUM_PARAM_REGS) * PARAM_ALIGNMENT % 16 = 0 then 0
        else 16 - (n - NUM_PARAM_REGS) * PARAM_ALIGNMENT % 16 := by
    unfold callStackBytes0
    rw [if_pos h, align_toNat]
  have hsnd := argMoves_snd n (callStackBytes0 n)
  have hpos : 0 < (argMoves n (callStackBytes0 n)).2 := by
    rw [hsnd]
    simp only [PARAM_ALIGNMENT]
    omega
  have hlist : (callStack n).1
      = (if 0 < callStackBytes0 n
         then [CallStep.subqRsp (callStackBytes0 n)] else []) ++
          ((argMoves n (callStackBytes0 n)).1 ++
            (CallStep.callIns ::
              [CallStep.addqRsp ((argMoves n (callStackBytes0 n)).2)])) := by
    unfold callStack
    dsimp only
    rw [if_pos hpos]
    simp [List.append_assoc]
  have hpre : preCallBytes
      ((if 0 < callStackBytes0 n
        then [CallStep.subqRsp (callStackBytes0 n)] else []) ++
        ((argMoves n (callStackBytes0 n)).1 ++
          (CallStep.callIns ::
            [CallStep.addqRsp ((argMoves n (callStackBytes0 n)).2)])))
      = callStackBytes0 n + PARAM_ALIGNMENT * (n - NUM_PARAM_REGS) := by
    by_cases hb : 0 < callStackBytes0 n
    · rw [if_pos hb, List.singleton_append, preCallBytes,
        preCallBytes_argMoves]
    · rw [if_neg hb, List.nil_append, preCallBytes_argMoves]
      omega
  have htot : callStackBytes0 n + PARAM_ALIGNMENT * (n - NUM_PARAM_REGS)
      = STACK_ALIGNMENT *
          (((n - NUM_PARAM_REGS) * PARAM_ALIGNMENT + (STACK_ALIGNMENT - 1))
            / STACK_ALIGNMENT) := by
    rw [hb0]
    simp only [NUM_PARAM_REGS, PARAM_ALIGNMENT, STACK_ALIGNMENT] at hk ⊢
    split <;> omega
  constructor
  · rw [hlist, hpre, htot]
  · rw [hlist, hpre]
    rw [List.getLast?_append_of_ne_nil _ (by simp),
      List.getLast?_append_of_ne_nil _ (by simp)]
    simp [hsnd]

/-- Witness for C6: seven arguments subtract 8 bytes of padding, push
one 8-byte argument, and reclaim 16 bytes after the call. -/
theorem call_stack_alignment_witness :
    preCallBytes (callStack 7).1 = 16
    ∧ (callStack 7).1.getLast? = some (CallStep.addqRsp 16)
    ∧ (callStack 7).1
        = [CallStep.subqRsp 8, CallStep.pushArg 6, CallStep.regArg 5,
           CallStep.regArg 4, CallStep.regArg 3, CallStep.regArg 2,
           CallStep.regArg 1, CallStep.regArg 0, CallStep.callIns,
           CallStep.addqRsp 16] := by
  have h := call_stack_alignment 7 (by decide)
  refine ⟨?_, ?_, by decide⟩
  · rw [h.1]
    decide
  · have h1 : preCallBytes (callStack 7).1 = 16 := by
      rw [h.1]
      decide
    rw [h1] at h
    exact h.2

theorem le_padUp (o : Int) : o ≤ padUp o := by
  unfold padUp PARAM_ALIGNMENT
  split <;> omega

theorem padUp_emod (o : Int) : padUp o % (PARAM_ALIGNMENT : Int) = 0 := by
  unfold padUp PARAM_ALIGNMENT
  split <;> omega

theorem stackParamOffsets_length : ∀ (ts : List Ty) (o : Int),
    (stackParamOffsets ts o).length = ts.length
  | [], _ => rfl
  | t :: ts, o => by
      simp [stackParamOffsets, stackParamOffsets_length ts]

theorem stackParamOffsets_lower : ∀ (ts : List Ty) (o x : Int),
    x ∈ stackParamOffsets ts o → o ≤ x
  | [], o, x, hx => by simp [stackParamOffsets] at hx
  | t :: ts, o, x, hx => by
      simp only [stackParamOffsets, List.mem_cons] at hx
      rcases hx with h | h
      · omega
      · have h1 := stackParamOffsets_lower ts _ x h
        have h2 := le_padUp (o + (t.size : Int))
        have h3 : (0 : Int) ≤ (t.size : Int) := Int.ofNat_nonneg _
        omega

theorem stackParamOffsets_emod : ∀ (ts : List Ty) (o : Int),
    o % (PARAM_ALIGNMENT : Int) = 0 →
    ∀ x ∈ stackParamOffsets ts o, x % (PARAM_ALIGNMENT : Int) = 0
  | [], o, ho, x, hx => by simp [stackParamOffsets] at hx
  | t :: ts, o, ho, x, hx => by
      simp only [stackParamOffsets, List.mem_cons] at hx
      rcases hx with h | h
      · rw [h]
        exact ho
      · exact stackParamOffsets_emod ts _ (padUp_emod _) x h

theorem stackParamOffsets_pairwise : ∀ (ts : List Ty) (o : Int),
    (∀ t ∈ ts, 1 ≤ t.size) →
    List.Pairwise (fun a b => a < b) (stackParamOffsets ts o)
  | [], o, _ => List.Pairwise.nil
  | t :: ts, o, hs => by
      simp only [stackParamOffsets]
      refine List.Pairwise.cons ?_
        (stackParamOffsets_pairwise ts _
          (fun u hu => hs u (List.mem_cons_of_mem _ hu)))
      intro y hy
      have h1 := stackParamOffsets_lower ts _ y hy
      have h2 := le_padUp (o + (t.size : Int))
      have h3 : 1 ≤ t.size := hs t (List.mem_cons_self _ _)
      have h4 : (1 : Int) ≤ (t.size : Int) := by exact_mod_cast h3
      omega

theorem regParamOffsets_length : ∀ (ts : List Ty) (o : Int),
    (regParamOffsets ts o).length = ts.length
  | [], _ => rfl
  | t :: ts, o => by
      simp [regParamOffsets, regParamOffsets_length ts]

theorem regParamOffsets_getD : ∀ (ts : List Ty) (o : Int) (i : Nat),
    i < ts.length →
    (regParamOffsets ts o).getD i 0
      = o - ((((ts.take (i + 1)).map Ty.size).sum : Nat) : Int)
  | [], o, i, hi => by simp at hi
  | t :: ts, o, 0, hi => by
      simp [regParamOffsets]
  | t :: ts, o, i + 1, hi => by
      simp only [regParamOffsets, List.getD_cons_succ]
      rw [regParamOffsets_getD ts (o - (t.size : Int)) i (by simpa using hi)]
      rw [List.take_succ_cons, List.map_cons, List.sum_cons]
      push_cast
      ring

/-- C3: after Function::allocate with initial offset 2 * SIZEOF_REG =
16, every parameter with index below NUM_PARAM_REGS receives the
negative offset -(size t_0 + ... + size t_i); every stack-passed
parameter receives a positive offset that is a multiple of
PARAM_ALIGNMENT, the first being 16, with offsets strictly increasing
in declaration order. -/
theorem function_allocate_offsets (types : List Ty)
    (hsz : ∀ t ∈ types, 1 ≤ t.size) :
    ((functionAllocate types 16).length = types.length)
    ∧ (∀ i, i < types.length → i < NUM_PARAM_REGS →
        (functionAllocate types 16).getD i 0
          = - ((((types.take (i + 1)).map Ty.size).sum : Nat) : Int))
    ∧ (∀ i, NUM_PARAM_REGS ≤ i → i < types.length →
        0 < (functionAllocate types 16).getD i 0
        ∧ (functionAllocate types 16).getD i 0 % (PARAM_ALIGNMENT : Int) = 0)
    ∧ (NUM_PARAM_REGS < types.length →
        (functionAllocate types 16).getD NUM_PARAM_REGS 0 = 16)
    ∧ List.Pairwise (fun a b => a < b)
        (stackParamOffsets (types.drop NUM_PARAM_REGS) 16) := by
  have hreglen : (regParamOffsets (types.take NUM_PARAM_REGS) 0).length
      = min NUM_PARAM_REGS types.length := by
    rw [regParamOffsets_length, List.length_take]
  refine ⟨?_, ?_, ?_, ?_, ?_⟩
  · unfold functionAllocate
    rw [List.length_append, hreglen, stackParamOffsets_length,
      List.length_drop]
    omega
  · intro i hilen hi6
    unfold functionAllocate
    rw [List.getD_append _ _ _ _ (by omega)]
    rw [regParamOffsets_getD _ _ _ (by rw [List.length_take]; omega)]
    rw [List.take_take, min_eq_left (by omega)]
    ring
  · intro i hi6 hilen
    unfold functionAllocate
    rw [List.getD_append_right _ _ _ _ (by omega)]
    have hidx : i - (regParamOffsets (types.take NUM_PARAM_REGS) 0).length
        < (stackParamOffsets (types.drop NUM_PARAM_REGS) 16).length := by
      rw [stackParamOffsets_length, List.length_drop]
      omega
    have hmem : (stackParamOffsets (types.drop NUM_PARAM_REGS) 16).getD
        (i - (regParamOffsets (types.take NUM_PARAM_REGS) 0).length) 0
        ∈ stackParamOffsets (types.drop NUM_PARAM_REGS) 16 := by
      rw [List.getD_eq_getElem _ _ hidx]
      exact List.getElem_mem hidx
    constructor
    · have := stackParamOffsets_lower _ _ _ hmem
      omega
    · exact stackParamOffsets_emod _ _ (by decide) _ hmem
  · intro hlen
    unfold functionAllocate
    rw [List.getD_append_right _ _ _ _ (by omega)]
    rcases hdrop : types.drop NUM_PARAM_REGS with _ | ⟨t, rest⟩
    · exfalso
      have := congrArg List.length hdrop
      rw [List.length_drop] at this
      simp at this
      omega
    · rw [stackParamOffsets]
      have : NUM_PARAM_REGS
          - (regParamOffsets (types.take NUM_PARAM_REGS) 0).length = 0 := by
        omega
      rw [this, List.getD_cons_zero]
  · exact stackParamOffsets_pairwise _ _
      (fun t ht => hsz t (List.drop_subset _ _ ht))

/-- Witness for C3: seven int parameters receive offsets -4, -8, -12,
-16, -20, -24 and 16, matching the theorem's conclusions at indices 0
and 6. -/
theorem function_allocate_offsets_witness :
    functionAllocate
        [integer, integer, integer, integer, integer, integer, integer] 16
      = [-4, -8, -12, -16, -20, -24, 16]
    ∧ (functionAllocate
        [integer, integer, integer, integer, integer, integer, integer]
        16).getD 0 0 = -4
    ∧ (functionAllocate
        [integer, integer, integer, integer, integer, integer, integer]
        16).getD 6 0 = 16 := by
  refine ⟨by decide, ?_, ?_⟩
  · have h := (function_allocate_offsets
      [integer, integer, integer, integer, integer, integer, integer]
      (by decide)).2.1 0 (by decide) (by decide)
    rw [h]
    decide
  · exact (function_allocate_offsets
      [integer, integer, integer, integer, integer, integer, integer]
      (by decide)).2.2.2.1 (by decide)

theorem assign_offset (e : Option Nat) (r : Option Reg) (s : GState) :
    (assign e r s).offset = s.offset := by
  unfold assign
  dsimp only
  repeat' split
  all_goals rfl

theorem assign_nodeOffset (e : Option Nat) (r : Option Reg) (s : GState) :
    (assign e r s).nodeOffset = s.nodeOffset := by
  unfold assign
  dsimp only
  repeat' split
  all_goals rfl

theorem assign_nodeSize (e : Option Nat) (r : Option Reg) (s : GState) :
    (assign e r s).nodeSize = s.nodeSize := by
  unfold assign
  dsimp only
  repeat' split
  all_goals rfl

theorem assign_regNode_set (e : Option Nat) (r : Reg) (s : GState) :
    (assign e (some r) s).regNode r = e := by
  unfold assign
  dsimp only
  repeat' split
  all_goals simp_all

theorem assign_nodeReg_set (node : Nat) (r : Reg) (s : GState)
    (h : s.regNode r ≠ some node) :
    (assign (some node) (some r) s).nodeReg node = some r := by
  unfold assign
  dsimp only
  repeat' split
  all_goals (try simp_all)
  all_goals omega

/-- C4: load(e, r) does nothing when r already holds e; otherwise it
emits exactly one spill mov (from r to a freshly decremented frame
slot, recorded as the evicted node's offset, negative whenever the
running offset was nonpositive and the node has positive size) iff r
held some other node, then exactly one load mov into r iff e is
non-null, and leaves e and r mutually bound. -/
theorem load_spec (e : Option Nat) (r : Reg) (s : GState) :
    (s.regNode r = e → load e r s = (s, []))
    ∧ (s.regNode r ≠ e →
        (load e r s).2
          = (match s.regNode r with
             | some m => [Instr.movRegToFrame (s.nodeSize m) r
                            (s.offset - (s.nodeSize m : Int))]
             | none => []) ++
            (match e with
             | some node => [Instr.movToReg (s.nodeSize node) node r]
             | none => [])
        ∧ (load e r s).1.regNode r = e
        ∧ (∀ node, e = some node → (load e r s).1.nodeReg node = some r)
        ∧ (∀ m, s.regNode r = some m →
            (load e r s).1.offset = s.offset - (s.nodeSize m : Int)
            ∧ (load e r s).1.nodeOffset m = s.offset - (s.nodeSize m : Int)
            ∧ (s.offset ≤ 0 → 1 ≤ s.nodeSize m →
                (load e r s).1.nodeOffset m < 0))
        ∧ (s.regNode r = none → (load e r s).1.offset = s.offset)) := by
  constructor
  · intro h
    unfold load
    rw [if_pos h]
  · intro h
    unfold load
    rw [if_neg h]
    cases hreg : s.regNode r with
    | none =>
        dsimp only
        refine ⟨rfl, assign_regNode_set e r s, ?_, ?_, ?_⟩
        · intro node hnode
          subst hnode
          apply assign_nodeReg_set
          rw [hreg]
          exact fun hx => Option.noConfusion hx
        · intro m hm
          exact Option.noConfusion hm
        · intro _
          rw [assign_offset]
    | some m =>
        dsimp only
        refine ⟨rfl, assign_regNode_set e r _, ?_, ?_, ?_⟩
        · intro node hnode
          subst hnode
          apply assign_nodeReg_set
          exact h
        · intro m2 hm2
          injection hm2 with hmm
          subst hmm
          refine ⟨by rw [assign_offset], ?_, ?_⟩
          · rw [assign_nodeOffset]
            simp
          · intro ho hs1
            rw [assign_nodeOffset]
            dsimp only
            rw [if_pos rfl]
            omega
        · intro hnone
          exact Option.noConfusion hnone

/-- Witness for C4: in a state where rax holds node 0 of size 8 and
the offset is 0, loading node 1 of size 4 emits exactly one spill mov
to the fresh slot -8 and one load mov, and binds node 1 and rax; when
the register already holds the requested node, nothing is emitted. -/
theorem load_spec_witness :
    (load (some 1) Reg.rax exState).2
      = [Instr.movRegToFrame 8 Reg.rax (-8), Instr.movToReg 4 1 Reg.rax]
    ∧ (load (some 1) Reg.rax exState).1.regNode Reg.rax = some 1
    ∧ (load (some 1) Reg.rax exState).1.nodeReg 1 = some Reg.rax
    ∧ (load (some 1) Reg.rax exState).1.nodeOffset 0 < 0
    ∧ load (some 0) Reg.rax exState = (exState, []) := by
  have h := (load_spec (some 1) Reg.rax exState).2 (by decide)
  refine ⟨h.1, h.2.1, h.2.2.1 1 rfl, ?_, ?_⟩
  · exact ((h.2.2.2.1 0 (by decide)).2.2 (by decide) (by decide))
  · exact (load_spec (some 0) Reg.rax exState).1 (by decide)

theorem assign_regNode_other (node : Nat) (r x : Reg) (s : GState)
    (hx : x ≠ r) (h : s.regNode x = none) :
    (assign (some node) (some r) s).regNode x = none := by
  unfold assign
  dsimp only
  repeat' split
  all_goals simp_all

/-- C5 counterexample: with every register free, the comparison
generators bind the result node to the first getreg() result (rax), and
the second getreg() call then returns a different register (rdi), so
the set instruction's byte register is not the register bound to the
result. -/
theorem setcc_two_getreg_cex :
    (setccRegs 0 freeState).1 = Reg.rax
    ∧ (setccRegs 0 freeState).2.1 = Reg.rdi
    ∧ Reg.rax ≠ Reg.rdi :=
  ⟨rfl, rfl, by decide⟩

/-- C5 amended: after assign(this, getreg()) has bound the result node,
the second getreg() returns the first register of the pool that is
still free, which is never the register just bound whenever some other
pool register is free in the starting state. -/
theorem setcc_second_getreg_distinct (t0 : Nat) (s : GState) (r2 : Reg)
    (hmem : r2 ∈ registers) (hfree : s.regNode r2 = none)
    (hne : r2 ≠ (setccRegs t0 s).1) :
    (setccRegs t0 s).2.1 ≠ (setccRegs t0 s).1 := by
  have hfind : ¬ registers.find? (fun r => (s.regNode r).isNone) = none := by
    intro hn
    have hx := List.find?_eq_none.mp hn r2 hmem
    simp [hfree] at hx
  cases hr1 : registers.find? (fun r => (s.regNode r).isNone) with
  | none => exact absurd hr1 hfind
  | some r1 =>
      have hfst : (setccRegs t0 s).1 = r1 := by
        simp [setccRegs, getreg, hr1]
      rw [hfst] at hne ⊢
      have h6 : (assign (some t0) (some r1) s).regNode r1 = some t0 :=
        assign_regNode_set _ _ _
      have h5 : (assign (some t0) (some r1) s).regNode r2 = none :=
        assign_regNode_other t0 r1 r2 s hne hfree
      have hfind2 : ¬ registers.find?
          (fun r => ((assign (some t0) (some r1) s).regNode r).isNone)
            = none := by
        intro hn
        have hx := List.find?_eq_none.mp hn r2 hmem
        simp [h5] at hx
      cases hr2 : registers.find?
          (fun r => ((assign (some t0) (some r1) s).regNode r).isNone) with
      | none => exact absurd hr2 hfind2
      | some rX =>
          have hsnd : (setccRegs t0 s).2.1 = rX := by
            simp [setccRegs, getreg, hr1, hr2]
          rw [hsnd]
          intro hEq
          subst hEq
          have hp := List.find?_some hr2
          rw [h6] at hp
          simp at hp

/-- Witness for C5: in the all-free state, rdi is a free pool register
distinct from the bound register, and the second getreg() indeed
differs from the first. -/
theorem setcc_second_getreg_distinct_witness :
    (setccRegs 0 freeState).2.1 ≠ (setccRegs 0 freeState).1 :=
  setcc_second_getreg_distinct 0 freeState Reg.rdi (by decide) rfl
    (by decide)

theorem load_free (node : Nat) (r : Reg) (s : GState)
    (h2 : s.regNode r = none) :
    load (some node) r s
      = (assign (some node) (some r) s,
         [Instr.movToReg (s.nodeSize node) node r]) := by
  unfold load
  rw [if_neg (by rw [h2]; exact fun hx => Option.noConfusion hx)]
  dsimp only
  simp only [h2, List.nil_append]

theorem load_none_eq (r : Reg) (s : GState) (h : s.regNode r = none) :
    load none r s = (s, []) := by
  unfold load
  rw [if_pos h]

theorem assign_nodeReg_other_free (node m : Nat) (r : Reg) (s : GState)
    (hm : m ≠ node) (h2 : s.regNode r = none) :
    (assign (some node) (some r) s).nodeReg m = s.nodeReg m := by
  unfold assign
  dsimp only
  repeat' split
  all_goals simp_all

theorem assign_none_nodeReg (node : Nat) (s : GState) :
    (assign (some node) none s).nodeReg node = none := by
  unfold assign
  dsimp only
  repeat' split
  all_goals simp_all

theorem assign_none_nodeReg_other (node m : Nat) (s : GState)
    (h : m ≠ node) :
    (assign (some node) none s).nodeReg m = s.nodeReg m := by
  unfold assign
  dsimp only
  repeat' split
  all_goals simp_all

theorem assign_none_regNode (node : Nat) (x : Reg) (s : GState)
    (h : s.nodeReg node = some x) :
    (assign (some node) none s).regNode x = none := by
  unfold assign
  dsimp only
  repeat' split
  all_goals simp_all

theorem assign_none_regNode_other (node : Nat) (x : Reg) (s : GState)
    (h : s.nodeReg node ≠ some x) :
    (assign (some node) none s).regNode x = s.regNode x := by
  unfold assign
  dsimp only
  repeat' split
  all_goals (try simp_all)
  all_goals (intro hx; exact absurd hx.symm (by assumption))

/-- C7 counterexample: when the left operand already sits in rdi and
the right in rsi, Divide::generate emits no mov at all — the operands
are not forced into rax and rcx — and goes straight to the sign
extension and an idiv on the right operand while the result is
nevertheless bound to rax. -/
theorem divide_no_force_cex :
    (divideGen 0 1 2 divState).2 = [Instr.cqto, Instr.idiv 8 1]
    ∧ Instr.movToReg 8 0 Reg.rax ∉ (divideGen 0 1 2 divState).2
    ∧ (divideGen 0 1 2 divState).1.regNode Reg.rax = some 2 := by
  refine ⟨rfl, by decide, rfl⟩

/-- C7 amended: Divide::generate and Remainder::generate load the left
operand into rax and the right operand into rcx only when the operand
currently occupies no register; rdx is spilled only when it holds a
node; cqto is chosen when the left operand's size is 8 and cltd
otherwise, followed by idiv on the right operand; both operands are
detached and the result is bound to rax for Divide and rdx for
Remainder.  Stated here for the run from a state where both operands
are in memory and rax, rdx, rcx are free. -/
theorem divide_remainder_protocol (l r t0 : Nat) (s : GState)
    (hlr : l ≠ r) (htl : t0 ≠ l) (htr : t0 ≠ r)
    (hL : s.nodeReg l = none) (hR : s.nodeReg r = none)
    (hT : s.nodeReg t0 = none)
    (hA : s.regNode Reg.rax = none) (hD : s.regNode Reg.rdx = none)
    (hC : s.regNode Reg.rcx = none) :
    (divideGen l r t0 s).2
      = [Instr.movToReg (s.nodeSize l) l Reg.rax,
         Instr.movToReg (s.nodeSize r) r Reg.rcx]
        ++ (if s.nodeSize l = 8 then [Instr.cqto] else [Instr.cltd])
        ++ [Instr.idiv (s.nodeSize r) r]
    ∧ (divideGen l r t0 s).1.regNode Reg.rax = some t0
    ∧ (divideGen l r t0 s).1.nodeReg t0 = some Reg.rax
    ∧ (divideGen l r t0 s).1.nodeReg l = none
    ∧ (divideGen l r t0 s).1.nodeReg r = none
    ∧ (remainderGen l r t0 s).2 = (divideGen l r t0 s).2
    ∧ (remainderGen l r t0 s).1.regNode Reg.rdx = some t0
    ∧ (remainderGen l r t0 s).1.nodeReg t0 = some Reg.rdx
    ∧ (remainderGen l r t0 s).1.nodeReg l = none
    ∧ (remainderGen l r t0 s).1.nodeReg r = none := by
  have hrl : r ≠ l := fun hh => hlr hh.symm
  have F1 : (assign (some l) (some Reg.rax) s).regNode Reg.rdx = none :=
    assign_regNode_other l Reg.rax Reg.rdx s (by decide) hD
  have F2 : (assign (some l) (some Reg.rax) s).regNode Reg.rcx = none :=
    assign_regNode_other l Reg.rax Reg.rcx s (by decide) hC
  have F3 : (assign (some l) (some Reg.rax) s).nodeReg r = none :=
    (assign_nodeReg_other_free l r Reg.rax s hrl hA).trans hR
  have hsetup : divideSetup l r s
      = (assign (some l) none (assign (some r) none
          (assign (some r) (some Reg.rcx) (assign (some l) (some Reg.rax) s))),
         [Instr.movToReg (s.nodeSize l) l Reg.rax,
          Instr.movToReg (s.nodeSize r) r Reg.rcx]
           ++ (if s.nodeSize l = 8 then [Instr.cqto] else [Instr.cltd])
           ++ [Instr.idiv (s.nodeSize r) r]) := by
    unfold divideSetup
    rw [if_pos hL, load_free l Reg.rax s hA]
    dsimp only
    rw [load_none_eq Reg.rdx _ F1]
    dsimp only
    rw [F3, if_pos rfl, load_free r Reg.rcx _ F2]
    dsimp only
    simp only [assign_nodeSize]
    rfl
  have G1 : (assign (some r) (some Reg.rcx)
      (assign (some l) (some Reg.rax) s)).nodeReg r = some Reg.rcx :=
    assign_nodeReg_set r Reg.rcx _
      (by rw [F2]; exact fun hx => Option.noConfusion hx)
  have G2 : (assign (some r) (some Reg.rcx)
      (assign (some l) (some Reg.rax) s)).nodeReg l = some Reg.rax := by
    rw [assign_nodeReg_other_free r l Reg.rcx _ hlr F2]
    exact assign_nodeReg_set l Reg.rax s
      (by rw [hA]; exact fun hx => Option.noConfusion hx)
  have G3 : (assign (some r) (some Reg.rcx)
      (assign (some l) (some Reg.rax) s)).nodeReg t0 = none := by
    rw [assign_nodeReg_other_free r t0 Reg.rcx _ htr F2]
    exact (assign_nodeReg_other_free l t0 Reg.rax s htl hA).trans hT
  have G4 : (assign (some r) (some Reg.rcx)
      (assign (some l) (some Reg.rax) s)).regNode Reg.rdx = none :=
    assign_regNode_other r Reg.rcx Reg.rdx _ (by decide) F1
  have H1 : (assign (some r) none (assign (some r) (some Reg.rcx)
      (assign (some l) (some Reg.rax) s))).nodeReg r = none :=
    assign_none_nodeReg r _
  have H2 : (assign (some r) none (assign (some r) (some Reg.rcx)
      (assign (some l) (some Reg.rax) s))).nodeReg l = some Reg.rax :=
    (assign_none_nodeReg_other r l _ hlr).trans G2
  have H3 : (assign (some r) none (assign (some r) (some Reg.rcx)
      (assign (some l) (some Reg.rax) s))).nodeReg t0 = none :=
    (assign_none_nodeReg_other r t0 _ htr).trans G3
  have H4 : (assign (some r) none (assign (some r) (some Reg.rcx)
      (assign (some l) (some Reg.rax) s))).regNode Reg.rdx = none := by
    rw [assign_none_regNode_other r Reg.rdx _
      (by rw [G1]; intro hx; exact absurd (Option.some.inj hx) (by decide))]
    exact G4
  have I1 : (assign (some l) none (assign (some r) none
      (assign (some r) (some Reg.rcx)
        (assign (some l) (some Reg.rax) s)))).nodeReg l = none :=
    assign_none_nodeReg l _
  have I2 : (assign (some l) none (assign (some r) none
      (assign (some r) (some Reg.rcx)
        (assign (some l) (some Reg.rax) s)))).nodeReg r = none :=
    (assign_none_nodeReg_other l r _ hrl).trans H1
  have I3 : (assign (some l) none (assign (some r) none
      (assign (some r) (some Reg.rcx)
        (assign (some l) (some Reg.rax) s)))).nodeReg t0 = none :=
    (assign_none_nodeReg_other l t0 _ htl).trans H3
  have I4 : (assign (some l) none (assign (some r) none
      (assign (some r) (some Reg.rcx)
        (assign (some l) (some Reg.rax) s)))).regNode Reg.rax = none :=
    assign_none_regNode l Reg.rax _ H2
  have I5 : (assign (some l) none (assign (some r) none
      (assign (some r) (some Reg.rcx)
        (assign (some l) (some Reg.rax) s)))).regNode Reg.rdx = none := by
    rw [assign_none_regNode_other l Reg.rdx _
      (by rw [H2]; intro hx; exact absurd (Option.some.inj hx) (by decide))]
    exact H4
  refine ⟨?_, ?_, ?_, ?_, ?_, ?_, ?_, ?_, ?_, ?_⟩
  · unfold divideGen
    rw [hsetup]
  · unfold divideGen
    rw [hsetup]
    dsimp only
    exact assign_regNode_set _ Reg.rax _
  · unfold divideGen
    rw [hsetup]
    dsimp only
    exact assign_nodeReg_set t0 Reg.rax _
      (by rw [I4]; exact fun hx => Option.noConfusion hx)
  · unfold divideGen
    rw [hsetup]
    dsimp only
    rw [assign_nodeReg_other_free t0 l Reg.rax _
      (fun hh => htl hh.symm) I4]
    exact I1
  · unfold divideGen
    rw [hsetup]
    dsimp only
    rw [assign_nodeReg_other_free t0 r Reg.rax _
      (fun hh => htr hh.symm) I4]
    exact I2
  · unfold remainderGen divideGen
    rw [hsetup]
  · unfold remainderGen
    rw [hsetup]
    dsimp only
    exact assign_regNode_set _ Reg.rdx _
  · unfold remainderGen
    rw [hsetup]
    dsimp only
    exact assign_nodeReg_set t0 Reg.rdx _
      (by rw [I5]; exact fun hx => Option.noConfusion hx)
  · unfold remainderGen
    rw [hsetup]
    dsimp only
    rw [assign_nodeReg_other_free t0 l Reg.rdx _
      (fun hh => htl hh.symm) I5]
    exact I1
  · unfold remainderGen
    rw [hsetup]
    dsimp only
    rw [assign_nodeReg_other_free t0 r Reg.rdx _
      (fun hh => htr hh.symm) I5]
    exact I2

/-- Witness for C7: the protocol theorem applied at a concrete state
with nodes 0 and 1 (sizes 8) in memory and result node 2. -/
theorem divide_remainder_protocol_witness :
    (divideGen 0 1 2 freeState).2
      = [Instr.movToReg 8 0 Reg.rax, Instr.movToReg 8 1 Reg.rcx,
         Instr.cqto, Instr.idiv 8 1]
    ∧ (divideGen 0 1 2 freeState).1.regNode Reg.rax = some 2
    ∧ (remainderGen 0 1 2 freeState).1.regNode Reg.rdx = some 2 := by
  have h := divide_remainder_protocol 0 1 2 freeState (by decide) (by decide)
    (by decide) rfl rfl rfl rfl rfl rfl
  refine ⟨?_, h.2.1, h.2.2.2.2.2.2.1⟩
  rw [h.1]
  decide

end SCC
